import Mathlib

/-!
Verification of the registration workflow hook (useRegisterIPAgent).

The source is a client-side orchestration hook.  All external services
(wallet network switch, image compression, IPFS uploads, hashing, the
remote mint-and-register call) and the small helper transforms imported
from library modules that are not part of the sources (extractCid,
toHttps, toIpfsUri) are modelled as an explicit environment `Env`:
each fallible service is an `Except String` value or function, each pure
helper is an arbitrary `String` function.  Theorems therefore quantify
over every possible behaviour of the external world.

`executeRegister` is a direct transcription of the function of the same
name in the source: the same order of external calls, the same
setRegisterState updates (a full replacement resets the optional fields,
a functional update merges into the previous state), the same validation
checks and thrown messages, the same inner try/catch around the mint
call, and the same top-level catch.  A run returns, besides the result
value, the final state, the ordered trace of every state written by
setRegisterState, the list of external calls performed, and a flag that
records whether the duplicate success block after the inner try/catch
was ever entered.
-/

/-- Status tags of the workflow state.  The hyphenated source tags map to
camel case: uploading-image is uploadingImage, and so on. -/
inductive Status where
  | idle
  | compressing
  | uploadingImage
  | creatingMetadata
  | uploadingMetadata
  | minting
  | success
  | error
deriving DecidableEq, Repr

/-- The RegisterState object of the source.  The error field holds the
message of the recorded error object, or none when the field is null or
absent; ipId and txHash are none when the source object lacks them. -/
structure RegisterState where
  status : Status
  progress : Nat
  error : Option String
  ipId : Option String
  txHash : Option String
deriving DecidableEq, Repr

/-- RegisterIntent: user supplied title and prompt, each possibly absent. -/
structure RegisterIntent where
  title : Option String
  prompt : Option String
deriving DecidableEq, Repr

/-- A media file: only the name and MIME type are read by the source. -/
structure MediaFile where
  name : String
  type : String
deriving DecidableEq, Repr

/-- Result of an IPFS upload: the source reads upload.cid falling back on
upload.url under JavaScript truthiness. -/
structure UploadResult where
  cid : Option String
  url : String
deriving DecidableEq, Repr

/-- A creator entry of the IP metadata record. -/
structure Creator where
  name : String
  address : String
  contributionPercent : Nat
deriving DecidableEq, Repr

/-- The aiMetadata block, present only for a truthy prompt. -/
structure AiMetadata where
  prompt : String
  generator : String
  model : String
deriving DecidableEq, Repr

/-- The IP metadata record assembled by the source. -/
structure IpMetadata where
  title : String
  description : String
  image : String
  imageHash : String
  mediaUrl : String
  mediaHash : String
  mediaType : String
  creators : List Creator
  aiMetadata : Option AiMetadata
deriving DecidableEq, Repr

/-- One attribute entry of the NFT metadata record. -/
structure NftAttribute where
  trait_type : String
  value : String
deriving DecidableEq, Repr

/-- The NFT metadata record assembled by the source. -/
structure NftMetadata where
  name : String
  description : String
  image : String
  ipMetadataURI : String
  attributes : List NftAttribute
deriving DecidableEq, Repr

/-- The argument object passed to client.ipAsset.mintAndRegisterIp. -/
structure MintParams where
  spgNftContract : String
  recipient : Option String
  ipMetadataURI : String
  ipMetadataHash : String
  nftMetadataURI : String
  nftMetadataHash : String
  allowDuplicates : Bool
deriving DecidableEq, Repr

/-- The object returned by a successful mintAndRegisterIp call. -/
structure MintResult where
  ipId : String
  txHash : String
deriving DecidableEq, Repr

/-- The value returned by executeRegister: the success object with its
five data fields, or the failure object with its message. -/
inductive ExecResult where
  | ok (ipId txHash imageUrl ipMetadataUrl nftMetadataUrl : String)
  | err (message : String)
deriving DecidableEq, Repr

/-- Tags for the external calls a run performs, in order. -/
inductive CallTag where
  | switchChain
  | compress
  | uploadFile
  | sha256
  | uploadIpJson
  | keccakIp
  | uploadNftJson
  | keccakNft
  | getClient
  | mint
deriving DecidableEq, Repr

/-- Everything a run observes of a run of executeRegister: the returned
value, the final state, the trace of states written by setRegisterState
in order, the external calls performed in order, and whether the
duplicate success block after the inner try/catch was entered. -/
structure RunResult where
  result : ExecResult
  finalState : RegisterState
  trace : List RegisterState
  calls : List CallTag
  deadCodeReached : Bool
deriving DecidableEq, Repr

/-- The environment of external services and imported helpers.  Fallible
services are Except valued; a thrown error is represented by its message
string.  The helper transforms extractCid, toHttps and toIpfsUri are
imported from library files outside the sources, so they are arbitrary
functions here.  uploadJSON is called at two different record types in
the source and appears here once per type. -/
structure Env where
  chainId : Nat
  switchChainAsync : Except String Unit
  address : Option String
  spgCollectionAddress : String
  compressImage : MediaFile → Except String MediaFile
  uploadFile : MediaFile → Except String UploadResult
  sha256HexOfFile : MediaFile → Except String String
  uploadIpJSON : IpMetadata → Except String UploadResult
  uploadNftJSON : NftMetadata → Except String UploadResult
  keccakOfIpJson : IpMetadata → Except String String
  keccakOfNftJson : NftMetadata → Except String String
  getClient : Except String Unit
  mintAndRegisterIp : MintParams → Except String MintResult
  extractCid : String → String
  toHttps : String → String
  toIpfsUri : String → String

/-- JavaScript a || b for strings: a unless a is the empty string. -/
def jsOrS (a b : String) : String := if a = "" then b else a

/-- JavaScript a || b where a may be absent. -/
def jsOr (a : Option String) (b : String) : String :=
  match a with
  | some s => jsOrS s b
  | none => b

/-- Whether p is a leading segment of l. -/
def leadsIn : List Char → List Char → Bool
  | [], _ => true
  | _ :: _, [] => false
  | a :: as, b :: bs => if a = b then leadsIn as bs else false

/-- Whether p occurs contiguously inside l. -/
def occursIn (p : List Char) : List Char → Bool
  | [] => leadsIn p []
  | c :: cs => leadsIn p (c :: cs) || occursIn p cs

/-- String startsWith from the source, on the character list. -/
def strStartsWith (s p : String) : Bool := leadsIn p.data s.data

/-- String includes from the source, on the character list. -/
def strContains (s p : String) : Bool := occursIn p.data s.data

/-- The cid-or-url extraction applied to every upload result:
extractCid(upload.cid || upload.url). -/
def cidOf (env : Env) (u : UploadResult) : String :=
  env.extractCid (jsOr u.cid u.url)

/-- The IP metadata record built in step 3 of the source, with the
JavaScript truthiness fallbacks on title, prompt, type and address. -/
def ipMetadataOf (env : Env) (intent : RegisterIntent) (cf : MediaFile)
    (iu : UploadResult) (ih : String) : IpMetadata :=
  { title := jsOr intent.title cf.name
    description := jsOr intent.prompt ""
    image := env.toHttps (cidOf env iu)
    imageHash := ih
    mediaUrl := env.toHttps (cidOf env iu)
    mediaHash := ih
    mediaType := jsOrS cf.type "image/webp"
    creators :=
      match env.address with
      | some a => if a = "" then [] else [⟨a, a, 100⟩]
      | none => []
    aiMetadata :=
      match intent.prompt with
      | some p => if p = "" then none else some ⟨p, "user", "rule-based"⟩
      | none => none }

/-- The NFT metadata record built in step 5 of the source. -/
def nftMetadataOf (env : Env) (ipMeta : IpMetadata) (iu : UploadResult)
    (ipu : UploadResult) : NftMetadata :=
  { name := "IP Ownership — " ++ ipMeta.title
    description := "Ownership NFT for IP Asset"
    image := env.toHttps (cidOf env iu)
    ipMetadataURI := env.toIpfsUri (cidOf env ipu)
    attributes := [⟨"ip_metadata_uri", env.toIpfsUri (cidOf env ipu)⟩] }

/-- The argument object of the mintAndRegisterIp call in step 7. -/
def mintParamsOf (env : Env) (ipu : UploadResult) (iph : String)
    (nfu : UploadResult) (nfh : String) : MintParams :=
  { spgNftContract := env.spgCollectionAddress
    recipient := env.address
    ipMetadataURI := env.toIpfsUri (cidOf env ipu)
    ipMetadataHash := iph
    nftMetadataURI := env.toIpfsUri (cidOf env nfu)
    nftMetadataHash := nfh
    allowDuplicates := true }

/-- The URI validation of the source: startsWith ipfs scheme. -/
def validUriB (u : String) : Bool := strStartsWith u "ipfs://"

/-- The hash validation of the source: the negation of
(not startsWith 0x or length different from 66). -/
def validHashB (h : String) : Bool := strStartsWith h "0x" && h.length == 66

/-- ensureAeneid: when the chain differs from 1315 it requests a switch,
catching a switch failure and throwing the fixed network message.
Returns the calls performed and the outcome. -/
def ensureAeneid (env : Env) : List CallTag × Except String Unit :=
  if env.chainId = 1315 then ([], Except.ok ())
  else
    match env.switchChainAsync with
    | Except.ok _ => ([CallTag.switchChain], Except.ok ())
    | Except.error _ =>
        ([CallTag.switchChain], Except.error "Failed to switch to Aeneid network")

/-- The state written by the first setRegisterState of a run: a full
replacement, so ipId and txHash are dropped. -/
def stage1 : RegisterState := ⟨Status.compressing, 10, none, none, none⟩

/-- Functional update before the image upload. -/
def stage2 : RegisterState :=
  { stage1 with status := Status.uploadingImage, progress := 25 }

/-- Functional update before building the IP metadata. -/
def stage3 : RegisterState :=
  { stage2 with status := Status.creatingMetadata, progress := 50 }

/-- Functional update before building the NFT metadata. -/
def stage4 : RegisterState :=
  { stage3 with status := Status.uploadingMetadata, progress := 60 }

/-- Functional update before validation and the mint call. -/
def stage5 : RegisterState :=
  { stage4 with status := Status.minting, progress := 75 }

/-- The full-replacement success state written on a successful mint. -/
def successState (r : MintResult) : RegisterState :=
  ⟨Status.success, 100, none, some r.ipId, some r.txHash⟩

/-- The functional update performed by the top-level catch: merge status
error and the caught error into the previous state, keeping every other
field. -/
def errorMerge (prev : RegisterState) (e : String) : RegisterState :=
  { prev with status := Status.error, error := some e }

/-- The top-level catch of executeRegister: merge status error and the
caught error into the current state, and return the failure object whose
message falls back on the string form of the error object, which for an
error with an empty message is the bare name Error. -/
def failWith (cur : RegisterState) (tr : List RegisterState)
    (cs : List CallTag) (dead : Bool) (e : String) : RunResult :=
  { result := ExecResult.err (jsOrS e "Error")
    finalState := errorMerge cur e
    trace := tr ++ [errorMerge cur e]
    calls := cs
    deadCodeReached := dead }

/-- The control flow out of the inner try/catch around the mint call:
either the return statement inside the try ran, or control fell through
to the statements after the try/catch. -/
inductive InnerFlow where
  | returned (r : MintResult)
  | fellThrough
deriving DecidableEq, Repr

/-- The fixed front text of the enriched diagnostic, up to and including
the label before the collection address. -/
def revertFront : String :=
  "Contract execution failed. This could be due to:\n" ++
  "• Invalid metadata format\n" ++
  "• Insufficient gas\n" ++
  "• Wrong SPG collection address\n" ++
  "• Network issues\n\n" ++
  "Using SPG: "

/-- The fixed text between the collection address and the original
message in the enriched diagnostic. -/
def revertMid : String := "\nOriginal error: "

/-- The enriched diagnostic thrown when the contract error message
includes the reversion marker. -/
def revertHelp (spg orig : String) : String :=
  revertFront ++ spg ++ revertMid ++ orig

/-- The inner try/catch of the source around mintAndRegisterIp: a
successful call reaches the return statement, a failing call is rethrown
enriched when its message includes the reversion marker and unchanged
otherwise.  Both arms leave the block, so fellThrough is never built. -/
def innerMintBlock (env : Env) (p : MintParams) : Except String InnerFlow :=
  match env.mintAndRegisterIp p with
  | Except.ok r => Except.ok (InnerFlow.returned r)
  | Except.error ce =>
      if strContains ce "execution reverted" then
        Except.error (revertHelp env.spgCollectionAddress ce)
      else
        Except.error ce

/-- The run record produced by the return statement inside the inner try
block on a successful mint: the success state is written and the success
object bundles the identifiers and the three gateway URLs. -/
def successRun (env : Env) (cs : List CallTag) (iu ipu nfu : UploadResult)
    (r : MintResult) : RunResult :=
  { result := ExecResult.ok r.ipId r.txHash
      (env.toHttps (cidOf env iu))
      (env.toHttps (cidOf env ipu))
      (env.toHttps (cidOf env nfu))
    finalState := successState r
    trace := [stage1, stage2, stage3, stage4, stage5, successState r]
    calls := cs
    deadCodeReached := false }

/-- The tail of a run after every upload and hash succeeded: the four
validation checks, getClient, and the inner mint block, with the trace
and call list fixed up to that point. -/
def finishRegister (env : Env) (c0 : List CallTag) (iu ipu : UploadResult)
    (iph : String) (nfu : UploadResult) (nfh : String) : RunResult :=
  if validUriB (env.toIpfsUri (cidOf env ipu)) = false then
    failWith stage5 [stage1, stage2, stage3, stage4, stage5]
      (c0 ++ [CallTag.compress, CallTag.uploadFile, CallTag.sha256,
        CallTag.uploadIpJson, CallTag.keccakIp, CallTag.uploadNftJson,
        CallTag.keccakNft]) false "Invalid IP metadata URI format"
  else if validUriB (env.toIpfsUri (cidOf env nfu)) = false then
    failWith stage5 [stage1, stage2, stage3, stage4, stage5]
      (c0 ++ [CallTag.compress, CallTag.uploadFile, CallTag.sha256,
        CallTag.uploadIpJson, CallTag.keccakIp, CallTag.uploadNftJson,
        CallTag.keccakNft]) false "Invalid NFT metadata URI format"
  else if validHashB iph = false then
    failWith stage5 [stage1, stage2, stage3, stage4, stage5]
      (c0 ++ [CallTag.compress, CallTag.uploadFile, CallTag.sha256,
        CallTag.uploadIpJson, CallTag.keccakIp, CallTag.uploadNftJson,
        CallTag.keccakNft]) false "Invalid IP metadata hash format"
  else if validHashB nfh = false then
    failWith stage5 [stage1, stage2, stage3, stage4, stage5]
      (c0 ++ [CallTag.compress, CallTag.uploadFile, CallTag.sha256,
        CallTag.uploadIpJson, CallTag.keccakIp, CallTag.uploadNftJson,
        CallTag.keccakNft]) false "Invalid NFT metadata hash format"
  else
    match env.getClient with
    | Except.error e =>
        failWith stage5 [stage1, stage2, stage3, stage4, stage5]
          (c0 ++ [CallTag.compress, CallTag.uploadFile, CallTag.sha256,
            CallTag.uploadIpJson, CallTag.keccakIp, CallTag.uploadNftJson,
            CallTag.keccakNft, CallTag.getClient]) false e
    | Except.ok _ =>
        match innerMintBlock env (mintParamsOf env ipu iph nfu nfh) with
        | Except.error e =>
            failWith stage5 [stage1, stage2, stage3, stage4, stage5]
              (c0 ++ [CallTag.compress, CallTag.uploadFile, CallTag.sha256,
                CallTag.uploadIpJson, CallTag.keccakIp, CallTag.uploadNftJson,
                CallTag.keccakNft, CallTag.getClient, CallTag.mint]) false e
        | Except.ok (InnerFlow.returned r) =>
            successRun env
              (c0 ++ [CallTag.compress, CallTag.uploadFile, CallTag.sha256,
                CallTag.uploadIpJson, CallTag.keccakIp, CallTag.uploadNftJson,
                CallTag.keccakNft, CallTag.getClient, CallTag.mint])
              iu ipu nfu r
        | Except.ok InnerFlow.fellThrough =>
            failWith stage5 [stage1, stage2, stage3, stage4, stage5]
              (c0 ++ [CallTag.compress, CallTag.uploadFile, CallTag.sha256,
                CallTag.uploadIpJson, CallTag.keccakIp, CallTag.uploadNftJson,
                CallTag.keccakNft, CallTag.getClient, CallTag.mint]) true
              "ReferenceError: result is not defined"

/-- executeRegister, transcribed from the source.  s0 is the state held
before the call; every failure merges status error and the caught error
into the most recently written state, exactly as the top-level catch
does with its functional update. -/
def executeRegister (env : Env) (s0 : RegisterState)
    (intent : RegisterIntent) (file : MediaFile) : RunResult :=
  match ensureAeneid env with
  | (c0, Except.error e) => failWith s0 [] c0 false e
  | (c0, Except.ok _) =>
    match env.compressImage file with
    | Except.error e => failWith stage1 [stage1] (c0 ++ [CallTag.compress]) false e
    | Except.ok cf =>
      match env.uploadFile cf with
      | Except.error e =>
          failWith stage2 [stage1, stage2]
            (c0 ++ [CallTag.compress, CallTag.uploadFile]) false e
      | Except.ok iu =>
        match env.sha256HexOfFile cf with
        | Except.error e =>
            failWith stage2 [stage1, stage2]
              (c0 ++ [CallTag.compress, CallTag.uploadFile, CallTag.sha256]) false e
        | Except.ok ih =>
          match env.uploadIpJSON (ipMetadataOf env intent cf iu ih) with
          | Except.error e =>
              failWith stage3 [stage1, stage2, stage3]
                (c0 ++ [CallTag.compress, CallTag.uploadFile, CallTag.sha256,
                  CallTag.uploadIpJson]) false e
          | Except.ok ipu =>
            match env.keccakOfIpJson (ipMetadataOf env intent cf iu ih) with
            | Except.error e =>
                failWith stage3 [stage1, stage2, stage3]
                  (c0 ++ [CallTag.compress, CallTag.uploadFile, CallTag.sha256,
                    CallTag.uploadIpJson, CallTag.keccakIp]) false e
            | Except.ok iph =>
              match env.uploadNftJSON
                  (nftMetadataOf env (ipMetadataOf env intent cf iu ih) iu ipu) with
              | Except.error e =>
                  failWith stage4 [stage1, stage2, stage3, stage4]
                    (c0 ++ [CallTag.compress, CallTag.uploadFile, CallTag.sha256,
                      CallTag.uploadIpJson, CallTag.keccakIp,
                      CallTag.uploadNftJson]) false e
              | Except.ok nfu =>
                match env.keccakOfNftJson
                    (nftMetadataOf env (ipMetadataOf env intent cf iu ih) iu ipu) with
                | Except.error e =>
                    failWith stage4 [stage1, stage2, stage3, stage4]
                      (c0 ++ [CallTag.compress, CallTag.uploadFile, CallTag.sha256,
                        CallTag.uploadIpJson, CallTag.keccakIp,
                        CallTag.uploadNftJson, CallTag.keccakNft]) false e
                | Except.ok nfh =>
                    finishRegister env c0 iu ipu iph nfu nfh

/-- The state held by useState before any call. -/
def initialRegisterState : RegisterState := ⟨Status.idle, 0, none, none, none⟩

/-- resetRegister: a full replacement to the idle state, ignoring the
previous state entirely. -/
def resetRegister (_prev : RegisterState) : RegisterState :=
  initialRegisterState

/-! ## Basic lemmas about the helper functions -/

/-- A list leads every extension of itself. -/
lemma leadsIn_append (p r : List Char) : leadsIn p (p ++ r) = true := by
  induction p with
  | nil => rfl
  | cons a as ih => simp [leadsIn, ih]

/-- A leading occurrence is an occurrence. -/
lemma occursIn_of_leadsIn (p l : List Char) (h : leadsIn p l = true) :
    occursIn p l = true := by
  cases l with
  | nil => simpa [occursIn] using h
  | cons c cs => simp [occursIn, h]

/-- A list occurs in any surrounding of itself. -/
lemma occursIn_mid (l1 p l3 : List Char) : occursIn p (l1 ++ (p ++ l3)) = true := by
  induction l1 with
  | nil => exact occursIn_of_leadsIn _ _ (leadsIn_append p l3)
  | cons a as ih => simp [occursIn, ih]

/-- strContains finds the middle part of a concatenation. -/
lemma strContains_concat (a b c : String) : strContains (a ++ b ++ c) b = true := by
  unfold strContains
  rw [String.data_append, String.data_append, List.append_assoc]
  exact occursIn_mid a.data b.data c.data

/-- strContains finds the tail of a concatenation. -/
lemma strContains_tail (a b : String) : strContains (a ++ b) b = true := by
  unfold strContains
  rw [String.data_append]
  have h := occursIn_mid a.data b.data []
  rwa [List.append_nil] at h

/-- The enriched diagnostic mentions the collection address. -/
lemma revertHelp_has_spg (spg orig : String) :
    strContains (revertHelp spg orig) spg = true := by
  unfold revertHelp
  rw [String.append_assoc]
  exact strContains_concat _ _ _

/-- The enriched diagnostic mentions the original message. -/
lemma revertHelp_has_orig (spg orig : String) :
    strContains (revertHelp spg orig) orig = true := by
  unfold revertHelp
  exact strContains_tail _ _

/-- The enriched diagnostic is never the empty string. -/
lemma revertHelp_ne_empty (spg orig : String) : revertHelp spg orig ≠ "" := by
  intro h
  have h2 : (revertHelp spg orig).data = ([] : List Char) := by rw [h]
  unfold revertHelp at h2
  rw [String.data_append, String.data_append, String.data_append] at h2
  have h3 := (List.append_eq_nil.mp h2).1
  have h4 := (List.append_eq_nil.mp h3).1
  have h5 := (List.append_eq_nil.mp h4).1
  exact absurd h5 (by decide)

/-- The message of the returned failure object is never empty: a
nonempty message passes through, an empty one falls back on the string
form of the error object. -/
lemma jsOrS_error_ne (e : String) : jsOrS e "Error" ≠ "" := by
  unfold jsOrS
  split
  · decide
  · assumption

/-- Both arms of the inner try/catch leave the block, so the
fall-through outcome is never produced. -/
lemma innerMintBlock_ne_fell (env : Env) (p : MintParams) :
    innerMintBlock env p ≠ Except.ok InnerFlow.fellThrough := by
  unfold innerMintBlock
  split
  · simp
  · split <;> simp

/-- ensureAeneid performs at most the switch call. -/
lemma ensureAeneid_calls (env : Env) :
    (ensureAeneid env).1 = [] ∨ (ensureAeneid env).1 = [CallTag.switchChain] := by
  unfold ensureAeneid
  split
  · exact Or.inl rfl
  · split <;> exact Or.inr rfl

/-! ## The shape of a run -/

/-- The pairs of current state and written trace at which a failure can
be caught: the initial state before the first write, then each stage. -/
def pipelinePairs (s0 : RegisterState) : List (RegisterState × List RegisterState) :=
  [(s0, []), (stage1, [stage1]), (stage2, [stage1, stage2]),
   (stage3, [stage1, stage2, stage3]),
   (stage4, [stage1, stage2, stage3, stage4]),
   (stage5, [stage1, stage2, stage3, stage4, stage5])]

/-- The tail of the run either fails at stage5 or succeeds. -/
lemma finish_shape (env : Env) (c0 : List CallTag) (iu ipu : UploadResult)
    (iph : String) (nfu : UploadResult) (nfh : String) :
    (∃ cs e, finishRegister env c0 iu ipu iph nfu nfh =
        failWith stage5 [stage1, stage2, stage3, stage4, stage5] cs false e) ∨
    (∃ cs r, finishRegister env c0 iu ipu iph nfu nfh =
        successRun env cs iu ipu nfu r) := by
  unfold finishRegister
  repeat' split
  all_goals
    first
    | exact Or.inl ⟨_, _, rfl⟩
    | exact Or.inr ⟨_, _, rfl⟩
    | (rename_i h; exact absurd h (innerMintBlock_ne_fell _ _))

/-- A run with every upload and hash succeeding reduces to the tail. -/
lemma exec_pipeline (env : Env) (s0 : RegisterState) (intent : RegisterIntent)
    (file : MediaFile) (c0 : List CallTag) (cf : MediaFile) (iu : UploadResult)
    (ih : String) (ipu : UploadResult) (iph : String) (nfu : UploadResult)
    (nfh : String)
    (hE : ensureAeneid env = (c0, Except.ok ()))
    (hc : env.compressImage file = Except.ok cf)
    (hu : env.uploadFile cf = Except.ok iu)
    (hs : env.sha256HexOfFile cf = Except.ok ih)
    (hip : env.uploadIpJSON (ipMetadataOf env intent cf iu ih) = Except.ok ipu)
    (hkI : env.keccakOfIpJson (ipMetadataOf env intent cf iu ih) = Except.ok iph)
    (hnf : env.uploadNftJSON
        (nftMetadataOf env (ipMetadataOf env intent cf iu ih) iu ipu) = Except.ok nfu)
    (hkN : env.keccakOfNftJson
        (nftMetadataOf env (ipMetadataOf env intent cf iu ih) iu ipu) = Except.ok nfh) :
    executeRegister env s0 intent file =
      finishRegister env c0 iu ipu iph nfu nfh := by
  simp only [executeRegister, hE, hc, hu, hs, hip, hkI, hnf, hkN]

/-- Every run is a failure caught at one of the pipeline pairs with the
dead flag off, or a success. -/
lemma run_shape (env : Env) (s0 : RegisterState) (intent : RegisterIntent)
    (file : MediaFile) :
    (∃ cur tr cs e, (cur, tr) ∈ pipelinePairs s0 ∧
        executeRegister env s0 intent file = failWith cur tr cs false e) ∨
    (∃ cs iu ipu nfu r,
        executeRegister env s0 intent file = successRun env cs iu ipu nfu r) := by
  rcases hE : ensureAeneid env with ⟨c0, r0⟩
  cases r0 with
  | error e =>
      exact Or.inl ⟨s0, [], c0, e, by simp [pipelinePairs],
        by simp only [executeRegister, hE]⟩
  | ok u =>
    cases u
    cases hc : env.compressImage file with
    | error e =>
        exact Or.inl ⟨stage1, [stage1], c0 ++ [CallTag.compress], e,
          by simp [pipelinePairs], by simp only [executeRegister, hE, hc]⟩
    | ok cf =>
      cases hu : env.uploadFile cf with
      | error e =>
          exact Or.inl ⟨stage2, [stage1, stage2],
            c0 ++ [CallTag.compress, CallTag.uploadFile], e,
            by simp [pipelinePairs], by simp only [executeRegister, hE, hc, hu]⟩
      | ok iu =>
        cases hs : env.sha256HexOfFile cf with
        | error e =>
            exact Or.inl ⟨stage2, [stage1, stage2],
              c0 ++ [CallTag.compress, CallTag.uploadFile, CallTag.sha256], e,
              by simp [pipelinePairs], by simp only [executeRegister, hE, hc, hu, hs]⟩
        | ok ih =>
          cases hip : env.uploadIpJSON (ipMetadataOf env intent cf iu ih) with
          | error e =>
              exact Or.inl ⟨stage3, [stage1, stage2, stage3],
                c0 ++ [CallTag.compress, CallTag.uploadFile, CallTag.sha256,
                  CallTag.uploadIpJson], e,
                by simp [pipelinePairs],
                by simp only [executeRegister, hE, hc, hu, hs, hip]⟩
          | ok ipu =>
            cases hkI : env.keccakOfIpJson (ipMetadataOf env intent cf iu ih) with
            | error e =>
                exact Or.inl ⟨stage3, [stage1, stage2, stage3],
                  c0 ++ [CallTag.compress, CallTag.uploadFile, CallTag.sha256,
                    CallTag.uploadIpJson, CallTag.keccakIp], e,
                  by simp [pipelinePairs],
                  by simp only [executeRegister, hE, hc, hu, hs, hip, hkI]⟩
            | ok iph =>
              cases hnf : env.uploadNftJSON
                  (nftMetadataOf env (ipMetadataOf env intent cf iu ih) iu ipu) with
              | error e =>
                  exact Or.inl ⟨stage4, [stage1, stage2, stage3, stage4],
                    c0 ++ [CallTag.compress, CallTag.uploadFile, CallTag.sha256,
                      CallTag.uploadIpJson, CallTag.keccakIp, CallTag.uploadNftJson], e,
                    by simp [pipelinePairs],
                    by simp only [executeRegister, hE, hc, hu, hs, hip, hkI, hnf]⟩
              | ok nfu =>
                cases hkN : env.keccakOfNftJson
                    (nftMetadataOf env (ipMetadataOf env intent cf iu ih) iu ipu) with
                | error e =>
                    exact Or.inl ⟨stage4, [stage1, stage2, stage3, stage4],
                      c0 ++ [CallTag.compress, CallTag.uploadFile, CallTag.sha256,
                        CallTag.uploadIpJson, CallTag.keccakIp, CallTag.uploadNftJson,
                        CallTag.keccakNft], e,
                      by simp [pipelinePairs],
                      by simp only [executeRegister, hE, hc, hu, hs, hip, hkI, hnf, hkN]⟩
                | ok nfh =>
                    have hrun := exec_pipeline env s0 intent file c0 cf iu ih ipu
                      iph nfu nfh hE hc hu hs hip hkI hnf hkN
                    rcases finish_shape env c0 iu ipu iph nfu nfh with
                      ⟨cs, e, hf⟩ | ⟨cs, r, hf⟩
                    · exact Or.inl ⟨stage5, [stage1, stage2, stage3, stage4, stage5],
                        cs, e, by simp [pipelinePairs], hrun.trans hf⟩
                    · exact Or.inr ⟨cs, iu, ipu, nfu, r, hrun.trans hf⟩

/-! ## State invariants and reachability -/

/-- The state invariant as the spec states it: an error only in status
error, identifiers only in status success. -/
def stateInvStrict (s : RegisterState) : Prop :=
  (s.error ≠ none → s.status = Status.error) ∧
  ((s.ipId ≠ none ∨ s.txHash ≠ none) → s.status = Status.success)

/-- The state invariant the code maintains: an error only in status
error, identifiers only in status success or in an error state that
merged them from the previous state. -/
def stateInv (s : RegisterState) : Prop :=
  (s.error ≠ none → s.status = Status.error) ∧
  ((s.ipId ≠ none ∨ s.txHash ≠ none) →
    s.status = Status.success ∨ s.status = Status.error)

instance stateInvStrict_dec (s : RegisterState) : Decidable (stateInvStrict s) := by
  unfold stateInvStrict
  infer_instance

instance stateInv_dec (s : RegisterState) : Decidable (stateInv s) := by
  unfold stateInv
  infer_instance

/-- States reachable by any sequence of executeRegister and
resetRegister calls from the initial state, together with every state
observably written during such a run. -/
inductive Reachable : RegisterState → Prop where
  | init : Reachable initialRegisterState
  | exec (env : Env) (intent : RegisterIntent) (file : MediaFile)
      {s : RegisterState} (h : Reachable s) :
      Reachable (executeRegister env s intent file).finalState
  | observed (env : Env) (intent : RegisterIntent) (file : MediaFile)
      {s t : RegisterState} (h : Reachable s)
      (ht : t ∈ (executeRegister env s intent file).trace) : Reachable t
  | reset {s : RegisterState} (h : Reachable s) : Reachable (resetRegister s)

/-- Any state produced by the top-level catch satisfies the invariant. -/
lemma stateInv_errorMerge (s : RegisterState) (e : String) :
    stateInv (errorMerge s e) :=
  ⟨fun _ => rfl, fun _ => Or.inr rfl⟩

/-- The success state satisfies the invariant. -/
lemma stateInv_successState (r : MintResult) : stateInv (successState r) :=
  ⟨fun h => absurd rfl h, fun _ => Or.inl rfl⟩

/-- Every state written during any run satisfies the invariant. -/
lemma trace_inv (env : Env) (s0 : RegisterState) (intent : RegisterIntent)
    (file : MediaFile) :
    ∀ t ∈ (executeRegister env s0 intent file).trace, stateInv t := by
  rcases run_shape env s0 intent file with
    ⟨cur, tr, cs, e, hmem, hrun⟩ | ⟨cs, iu, ipu, nfu, r, hrun⟩
  · rw [hrun]
    intro t ht
    simp only [failWith, List.mem_append, List.mem_singleton] at ht
    rcases ht with ht | rfl
    · simp only [pipelinePairs, List.mem_cons, List.not_mem_nil, or_false,
        Prod.mk.injEq] at hmem
      rcases hmem with ⟨rfl, rfl⟩ | ⟨rfl, rfl⟩ | ⟨rfl, rfl⟩ | ⟨rfl, rfl⟩ |
        ⟨rfl, rfl⟩ | ⟨rfl, rfl⟩ <;> simp_all <;>
        rcases ht with rfl | rfl | rfl | rfl | rfl <;> decide
    · exact stateInv_errorMerge cur e
  · rw [hrun]
    intro t ht
    simp only [successRun, List.mem_cons, List.not_mem_nil, or_false] at ht
    rcases ht with rfl | rfl | rfl | rfl | rfl | rfl
    · decide
    · decide
    · decide
    · decide
    · decide
    · exact stateInv_successState r

/-- The final state of any run satisfies the invariant. -/
lemma final_inv (env : Env) (s0 : RegisterState) (intent : RegisterIntent)
    (file : MediaFile) :
    stateInv (executeRegister env s0 intent file).finalState := by
  rcases run_shape env s0 intent file with
    ⟨cur, tr, cs, e, hmem, hrun⟩ | ⟨cs, iu, ipu, nfu, r, hrun⟩
  · rw [hrun]
    exact stateInv_errorMerge cur e
  · rw [hrun]
    exact stateInv_successState r

/-! ## Concrete inputs for witnesses -/

/-- A 66 character 0x hash value. -/
def hash66a : String :=
  "0x1111111111111111111111111111111111111111111111111111111111111111"

/-- A second 66 character 0x hash value. -/
def hash66b : String :=
  "0x2222222222222222222222222222222222222222222222222222222222222222"

/-- A concrete intent. -/
def intentC : RegisterIntent := ⟨some "Cat", some ""⟩

/-- A concrete file. -/
def fileC : MediaFile := ⟨"cat.png", "image/png"⟩

/-- An environment in which every external call succeeds. -/
def envOkay : Env :=
  { chainId := 1315
    switchChainAsync := Except.ok ()
    address := some "0xUSER"
    spgCollectionAddress := "0xc32A8a0FF3beDDDa58393d022aF433e78739FAbc"
    compressImage := fun f => Except.ok f
    uploadFile := fun _ => Except.ok ⟨some "imgcid", "https://x"⟩
    sha256HexOfFile := fun _ => Except.ok "aa11"
    uploadIpJSON := fun _ => Except.ok ⟨some "ipcid", "https://y"⟩
    uploadNftJSON := fun _ => Except.ok ⟨some "nftcid", "https://z"⟩
    keccakOfIpJson := fun _ => Except.ok hash66a
    keccakOfNftJson := fun _ => Except.ok hash66b
    getClient := Except.ok ()
    mintAndRegisterIp := fun _ => Except.ok ⟨"0xABC", "0xDEF"⟩
    extractCid := fun s => s
    toHttps := fun c => "https://ipfs.io/ipfs/" ++ c
    toIpfsUri := fun c => "ipfs://" ++ c }

/-- envOkay with a failing compression stage. -/
def envCompressFail : Env :=
  { envOkay with compressImage := fun _ => Except.error "boom" }

/-- envOkay on a foreign chain with a failing switch request. -/
def envSwitchFail : Env :=
  { envOkay with
    chainId := 1
    switchChainAsync := Except.error "User rejected the request" }

/-- envOkay with a URI helper that yields a non content-addressed URI. -/
def envBadIpUri : Env :=
  { envOkay with toIpfsUri := fun c => "http://" ++ c }

/-- envOkay with a mint call failing with a reversion message. -/
def envRevert : Env :=
  { envOkay with
    mintAndRegisterIp := fun _ => Except.error "execution reverted: panic" }

/-- A nonempty message passes unchanged through the fallback. -/
lemma jsOrS_of_ne (a b : String) (h : a ≠ "") : jsOrS a b = a := by
  unfold jsOrS
  rw [if_neg h]

/-! ## Claims -/

/-- C1: for every run of execute in which every external call succeeds —
observed as the run returning the success object — the states written by
setRegisterState advance exactly through compressing 10,
uploading-image 25, creating-metadata 50, uploading-metadata 60,
minting 75, success 100, in that order with no value skipped or
repeated, and the final status is success. -/
theorem c1_success_progression (env : Env) (s0 : RegisterState)
    (intent : RegisterIntent) (file : MediaFile) (i t a b c : String)
    (h : (executeRegister env s0 intent file).result = ExecResult.ok i t a b c) :
    (executeRegister env s0 intent file).trace.map
        (fun s => (s.status, s.progress)) =
      [(Status.compressing, 10), (Status.uploadingImage, 25),
       (Status.creatingMetadata, 50), (Status.uploadingMetadata, 60),
       (Status.minting, 75), (Status.success, 100)] ∧
    (executeRegister env s0 intent file).finalState.status = Status.success := by
  rcases run_shape env s0 intent file with
    ⟨cur, tr, cs, e, hmem, hrun⟩ | ⟨cs, iu, ipu, nfu, r, hrun⟩
  · rw [hrun] at h
    simp [failWith] at h
  · rw [hrun]
    constructor
    · simp [successRun, successState, stage1, stage2, stage3, stage4, stage5]
    · rfl

/-- C1 witness: a fully successful concrete run. -/
theorem c1_success_progression_witness :
    (executeRegister envOkay initialRegisterState intentC fileC).trace.map
        (fun s => (s.status, s.progress)) =
      [(Status.compressing, 10), (Status.uploadingImage, 25),
       (Status.creatingMetadata, 50), (Status.uploadingMetadata, 60),
       (Status.minting, 75), (Status.success, 100)] ∧
    (executeRegister envOkay initialRegisterState intentC fileC).finalState.status =
      Status.success :=
  c1_success_progression envOkay initialRegisterState intentC fileC
    "0xABC" "0xDEF" "https://ipfs.io/ipfs/imgcid" "https://ipfs.io/ipfs/ipcid"
    "https://ipfs.io/ipfs/nftcid" (by rfl)

/-- C2: every run in which a stage throws — observed as the run
returning the failure object — ends with status error, with the caught
error recorded on the state, and the returned message is nonempty; the
error is returned rather than rethrown, which the embedding expresses by
executeRegister being a total function into RunResult. -/
theorem c2_error_capture (env : Env) (s0 : RegisterState)
    (intent : RegisterIntent) (file : MediaFile) (m : String)
    (h : (executeRegister env s0 intent file).result = ExecResult.err m) :
    (executeRegister env s0 intent file).finalState.status = Status.error ∧
    (executeRegister env s0 intent file).finalState.error.isSome = true ∧
    m ≠ "" := by
  rcases run_shape env s0 intent file with
    ⟨cur, tr, cs, e, hmem, hrun⟩ | ⟨cs, iu, ipu, nfu, r, hrun⟩
  · rw [hrun] at h ⊢
    simp only [failWith, ExecResult.err.injEq] at h
    subst h
    exact ⟨rfl, rfl, jsOrS_error_ne e⟩
  · rw [hrun] at h
    simp [successRun] at h

/-- C2 witness: a concrete run failing at the compression stage. -/
theorem c2_error_capture_witness :
    (executeRegister envCompressFail initialRegisterState intentC fileC).finalState.status =
      Status.error ∧
    (executeRegister envCompressFail initialRegisterState intentC fileC).finalState.error.isSome =
      true ∧
    "boom" ≠ "" :=
  c2_error_capture envCompressFail initialRegisterState intentC fileC "boom" (by rfl)

/-- C5: reset yields exactly the idle state with progress 0, no error
and no identifier fields, from any prior state, and is idempotent. -/
theorem c5_reset_idempotent (s : RegisterState) :
    resetRegister s = ⟨Status.idle, 0, none, none, none⟩ ∧
    resetRegister (resetRegister s) = resetRegister s :=
  ⟨rfl, rfl⟩

/-- C6: when the active chain differs from 1315 and the switch request
fails, the run fails with the network switch message, the only external
call performed is the switch request — so no compression, upload,
hashing or registration happens — and the state moves to error. -/
theorem c6_network_gate (env : Env) (s0 : RegisterState)
    (intent : RegisterIntent) (file : MediaFile) (msg : String)
    (hchain : env.chainId ≠ 1315)
    (hsw : env.switchChainAsync = Except.error msg) :
    (executeRegister env s0 intent file).result =
      ExecResult.err "Failed to switch to Aeneid network" ∧
    (executeRegister env s0 intent file).calls = [CallTag.switchChain] ∧
    (executeRegister env s0 intent file).finalState.status = Status.error ∧
    (executeRegister env s0 intent file).trace =
      [errorMerge s0 "Failed to switch to Aeneid network"] := by
  have hE : ensureAeneid env =
      ([CallTag.switchChain], Except.error "Failed to switch to Aeneid network") := by
    unfold ensureAeneid
    rw [if_neg hchain, hsw]
  refine ⟨?_, ?_, ?_, ?_⟩ <;> simp only [executeRegister, hE] <;> rfl

/-- C6 witness: a concrete run on chain 1 with a rejected switch. -/
theorem c6_network_gate_witness :
    (executeRegister envSwitchFail initialRegisterState intentC fileC).result =
      ExecResult.err "Failed to switch to Aeneid network" ∧
    (executeRegister envSwitchFail initialRegisterState intentC fileC).calls =
      [CallTag.switchChain] ∧
    (executeRegister envSwitchFail initialRegisterState intentC fileC).finalState.status =
      Status.error ∧
    (executeRegister envSwitchFail initialRegisterState intentC fileC).trace =
      [errorMerge initialRegisterState "Failed to switch to Aeneid network"] :=
  c6_network_gate envSwitchFail initialRegisterState intentC fileC
    "User rejected the request" (by decide) (by rfl)

/-- C9: the duplicate success block after the inner try/catch is
unreachable: no run of executeRegister, under any behaviour of the
external services, ever enters it. -/
theorem c9_dead_code_unreachable (env : Env) (s0 : RegisterState)
    (intent : RegisterIntent) (file : MediaFile) :
    (executeRegister env s0 intent file).deadCodeReached = false := by
  rcases run_shape env s0 intent file with
    ⟨cur, tr, cs, e, hmem, hrun⟩ | ⟨cs, iu, ipu, nfu, r, hrun⟩ <;>
    rw [hrun] <;> rfl

/-- C10: on the transition to status error in the top-level catch, every
field other than status and error keeps the value it had immediately
before the failure — the state merged into is the last written state of
the run, or the pre-run state when nothing had been written — and in
particular progress is not reset. -/
theorem c10_error_frame (env : Env) (s0 : RegisterState)
    (intent : RegisterIntent) (file : MediaFile) (m : String)
    (h : (executeRegister env s0 intent file).result = ExecResult.err m) :
    ∃ e, m = jsOrS e "Error" ∧
      (executeRegister env s0 intent file).finalState =
        errorMerge
          ((executeRegister env s0 intent file).trace.dropLast.getLastD s0) e := by
  rcases run_shape env s0 intent file with
    ⟨cur, tr, cs, e, hmem, hrun⟩ | ⟨cs, iu, ipu, nfu, r, hrun⟩
  · rw [hrun] at h ⊢
    refine ⟨e, ?_, ?_⟩
    · simp only [failWith, ExecResult.err.injEq] at h
      exact h.symm
    · simp only [failWith]
      rw [List.dropLast_concat]
      simp only [pipelinePairs, List.mem_cons, List.not_mem_nil, or_false,
        Prod.mk.injEq] at hmem
      rcases hmem with ⟨rfl, rfl⟩ | ⟨rfl, rfl⟩ | ⟨rfl, rfl⟩ | ⟨rfl, rfl⟩ |
        ⟨rfl, rfl⟩ | ⟨rfl, rfl⟩ <;> rfl
  · rw [hrun] at h
    simp [successRun] at h

/-- C10 witness: a concrete run failing at the compression stage keeps
the progress and identifier fields of the state written before the
failure. -/
theorem c10_error_frame_witness :
    (executeRegister envCompressFail initialRegisterState intentC fileC).result =
      ExecResult.err "boom" ∧
    ∃ e, "boom" = jsOrS e "Error" ∧
      (executeRegister envCompressFail initialRegisterState intentC fileC).finalState =
        errorMerge
          ((executeRegister envCompressFail initialRegisterState
              intentC fileC).trace.dropLast.getLastD initialRegisterState) e :=
  ⟨by rfl,
    c10_error_frame envCompressFail initialRegisterState intentC fileC "boom" (by rfl)⟩

/-- The four messages of the local metadata-format validation. -/
def invalidFormatMessages : List String :=
  ["Invalid IP metadata URI format", "Invalid NFT metadata URI format",
   "Invalid IP metadata hash format", "Invalid NFT metadata hash format"]

/-- When any validation check fails, the tail of the run stops with one
of the four validation messages, before getClient and the mint call. -/
lemma finish_invalid (env : Env) (c0 : List CallTag) (iu ipu : UploadResult)
    (iph : String) (nfu : UploadResult) (nfh : String)
    (hbad : validUriB (env.toIpfsUri (cidOf env ipu)) = false ∨
      validUriB (env.toIpfsUri (cidOf env nfu)) = false ∨
      validHashB iph = false ∨ validHashB nfh = false) :
    ∃ m, finishRegister env c0 iu ipu iph nfu nfh =
        failWith stage5 [stage1, stage2, stage3, stage4, stage5]
          (c0 ++ [CallTag.compress, CallTag.uploadFile, CallTag.sha256,
            CallTag.uploadIpJson, CallTag.keccakIp, CallTag.uploadNftJson,
            CallTag.keccakNft]) false m ∧
      m ∈ invalidFormatMessages := by
  by_cases h1 : validUriB (env.toIpfsUri (cidOf env ipu)) = false
  · refine ⟨"Invalid IP metadata URI format", ?_, by simp [invalidFormatMessages]⟩
    simp [finishRegister, h1]
  · by_cases h2 : validUriB (env.toIpfsUri (cidOf env nfu)) = false
    · refine ⟨"Invalid NFT metadata URI format", ?_, by simp [invalidFormatMessages]⟩
      simp [finishRegister, h1, h2]
    · by_cases h3 : validHashB iph = false
      · refine ⟨"Invalid IP metadata hash format", ?_, by simp [invalidFormatMessages]⟩
        simp [finishRegister, h1, h2, h3]
      · by_cases h4 : validHashB nfh = false
        · refine ⟨"Invalid NFT metadata hash format", ?_,
            by simp [invalidFormatMessages]⟩
          simp [finishRegister, h1, h2, h3, h4]
        · rcases hbad with hb | hb | hb | hb <;> simp_all

/-- C3: when the computed IP or NFT metadata URI lacks the ipfs prefix,
or either metadata hash is not a 0x string of length 66, the run fails
with one of the metadata-format messages and the remote registration
call is never invoked. -/
theorem c3_validation_gate (env : Env) (s0 : RegisterState)
    (intent : RegisterIntent) (file : MediaFile) (c0 : List CallTag)
    (cf : MediaFile) (iu : UploadResult) (ih : String) (ipu : UploadResult)
    (iph : String) (nfu : UploadResult) (nfh : String)
    (hE : ensureAeneid env = (c0, Except.ok ()))
    (hc : env.compressImage file = Except.ok cf)
    (hu : env.uploadFile cf = Except.ok iu)
    (hs : env.sha256HexOfFile cf = Except.ok ih)
    (hip : env.uploadIpJSON (ipMetadataOf env intent cf iu ih) = Except.ok ipu)
    (hkI : env.keccakOfIpJson (ipMetadataOf env intent cf iu ih) = Except.ok iph)
    (hnf : env.uploadNftJSON
        (nftMetadataOf env (ipMetadataOf env intent cf iu ih) iu ipu) = Except.ok nfu)
    (hkN : env.keccakOfNftJson
        (nftMetadataOf env (ipMetadataOf env intent cf iu ih) iu ipu) = Except.ok nfh)
    (hbad : validUriB (env.toIpfsUri (cidOf env ipu)) = false ∨
      validUriB (env.toIpfsUri (cidOf env nfu)) = false ∨
      validHashB iph = false ∨ validHashB nfh = false) :
    ∃ m, (executeRegister env s0 intent file).result = ExecResult.err m ∧
      m ∈ invalidFormatMessages ∧
      (executeRegister env s0 intent file).finalState.status = Status.error ∧
      CallTag.mint ∉ (executeRegister env s0 intent file).calls := by
  have hrun := exec_pipeline env s0 intent file c0 cf iu ih ipu iph nfu nfh
    hE hc hu hs hip hkI hnf hkN
  rcases finish_invalid env c0 iu ipu iph nfu nfh hbad with ⟨m, hf, hm⟩
  have hmne : m ≠ "" := by
    simp only [invalidFormatMessages, List.mem_cons, List.not_mem_nil,
      or_false] at hm
    rcases hm with rfl | rfl | rfl | rfl <;> decide
  have hc0 := ensureAeneid_calls env
  rw [hE] at hc0
  refine ⟨m, ?_, hm, ?_, ?_⟩
  · rw [hrun, hf]
    simp [failWith, jsOrS_of_ne m "Error" hmne]
  · rw [hrun, hf]
    rfl
  · rw [hrun, hf]
    rcases hc0 with hc0 | hc0 <;> simp only at hc0 <;> subst hc0 <;>
      simp [failWith]

/-- C3 witness: a concrete run in which the URI helper yields a
non content-addressed URI. -/
theorem c3_validation_gate_witness :
    ∃ m, (executeRegister envBadIpUri initialRegisterState intentC fileC).result =
        ExecResult.err m ∧
      m ∈ invalidFormatMessages ∧
      (executeRegister envBadIpUri initialRegisterState intentC fileC).finalState.status =
        Status.error ∧
      CallTag.mint ∉ (executeRegister envBadIpUri initialRegisterState intentC fileC).calls :=
  c3_validation_gate envBadIpUri initialRegisterState intentC fileC []
    fileC ⟨some "imgcid", "https://x"⟩ "aa11" ⟨some "ipcid", "https://y"⟩
    hash66a ⟨some "nftcid", "https://z"⟩ hash66b
    (by rfl) (by rfl) (by rfl) (by rfl) (by rfl) (by rfl) (by rfl) (by rfl)
    (Or.inl (by rfl))

/-- When every validation check passes and getClient succeeds, a failing
mint call stops the run with the enriched message on a reversion and
with the original message otherwise. -/
lemma finish_mint_error (env : Env) (c0 : List CallTag) (iu ipu : UploadResult)
    (iph : String) (nfu : UploadResult) (nfh : String) (ce : String)
    (hv1 : validUriB (env.toIpfsUri (cidOf env ipu)) = true)
    (hv2 : validUriB (env.toIpfsUri (cidOf env nfu)) = true)
    (hv3 : validHashB iph = true)
    (hv4 : validHashB nfh = true)
    (hg : env.getClient = Except.ok ())
    (hm : env.mintAndRegisterIp (mintParamsOf env ipu iph nfu nfh) =
      Except.error ce) :
    finishRegister env c0 iu ipu iph nfu nfh =
      failWith stage5 [stage1, stage2, stage3, stage4, stage5]
        (c0 ++ [CallTag.compress, CallTag.uploadFile, CallTag.sha256,
          CallTag.uploadIpJson, CallTag.keccakIp, CallTag.uploadNftJson,
          CallTag.keccakNft, CallTag.getClient, CallTag.mint]) false
        (if strContains ce "execution reverted" = true then
          revertHelp env.spgCollectionAddress ce
        else ce) := by
  unfold finishRegister innerMintBlock
  by_cases hcon : strContains ce "execution reverted" = true <;>
    simp [hv1, hv2, hv3, hv4, hg, hm, hcon]

/-- When every validation check passes and getClient and the mint call
succeed, the run ends in the success form. -/
lemma finish_mint_ok (env : Env) (c0 : List CallTag) (iu ipu : UploadResult)
    (iph : String) (nfu : UploadResult) (nfh : String) (r : MintResult)
    (hv1 : validUriB (env.toIpfsUri (cidOf env ipu)) = true)
    (hv2 : validUriB (env.toIpfsUri (cidOf env nfu)) = true)
    (hv3 : validHashB iph = true)
    (hv4 : validHashB nfh = true)
    (hg : env.getClient = Except.ok ())
    (hm : env.mintAndRegisterIp (mintParamsOf env ipu iph nfu nfh) =
      Except.ok r) :
    finishRegister env c0 iu ipu iph nfu nfh =
      successRun env
        (c0 ++ [CallTag.compress, CallTag.uploadFile, CallTag.sha256,
          CallTag.uploadIpJson, CallTag.keccakIp, CallTag.uploadNftJson,
          CallTag.keccakNft, CallTag.getClient, CallTag.mint]) iu ipu nfu r := by
  unfold finishRegister innerMintBlock
  simp [hv1, hv2, hv3, hv4, hg, hm]

/-- C4: when the remote registration call rejects with a message
containing the reversion marker, the message returned by execute
contains both the configured collection address and the original
message; when the message lacks the marker, the original failure is
recorded unchanged by the top-level handler. -/
theorem c4_revert_enrichment (env : Env) (s0 : RegisterState)
    (intent : RegisterIntent) (file : MediaFile) (c0 : List CallTag)
    (cf : MediaFile) (iu : UploadResult) (ih : String) (ipu : UploadResult)
    (iph : String) (nfu : UploadResult) (nfh : String) (ce : String)
    (hE : ensureAeneid env = (c0, Except.ok ()))
    (hc : env.compressImage file = Except.ok cf)
    (hu : env.uploadFile cf = Except.ok iu)
    (hs : env.sha256HexOfFile cf = Except.ok ih)
    (hip : env.uploadIpJSON (ipMetadataOf env intent cf iu ih) = Except.ok ipu)
    (hkI : env.keccakOfIpJson (ipMetadataOf env intent cf iu ih) = Except.ok iph)
    (hnf : env.uploadNftJSON
        (nftMetadataOf env (ipMetadataOf env intent cf iu ih) iu ipu) = Except.ok nfu)
    (hkN : env.keccakOfNftJson
        (nftMetadataOf env (ipMetadataOf env intent cf iu ih) iu ipu) = Except.ok nfh)
    (hv1 : validUriB (env.toIpfsUri (cidOf env ipu)) = true)
    (hv2 : validUriB (env.toIpfsUri (cidOf env nfu)) = true)
    (hv3 : validHashB iph = true)
    (hv4 : validHashB nfh = true)
    (hg : env.getClient = Except.ok ())
    (hm : env.mintAndRegisterIp (mintParamsOf env ipu iph nfu nfh) =
      Except.error ce) :
    (strContains ce "execution reverted" = true →
      ∃ m, (executeRegister env s0 intent file).result = ExecResult.err m ∧
        strContains m env.spgCollectionAddress = true ∧
        strContains m ce = true) ∧
    (strContains ce "execution reverted" = false →
      (executeRegister env s0 intent file).finalState.error = some ce ∧
      (executeRegister env s0 intent file).result =
        ExecResult.err (jsOrS ce "Error")) := by
  have hrun := exec_pipeline env s0 intent file c0 cf iu ih ipu iph nfu nfh
    hE hc hu hs hip hkI hnf hkN
  have hfin := finish_mint_error env c0 iu ipu iph nfu nfh ce
    hv1 hv2 hv3 hv4 hg hm
  constructor
  · intro hcon
    refine ⟨revertHelp env.spgCollectionAddress ce, ?_,
      revertHelp_has_spg _ _, revertHelp_has_orig _ _⟩
    rw [hrun, hfin]
    simp [failWith, hcon,
      jsOrS_of_ne (revertHelp env.spgCollectionAddress ce) "Error"
        (revertHelp_ne_empty _ _)]
  · intro hcon
    rw [hrun, hfin]
    constructor
    · simp [failWith, errorMerge, hcon]
    · simp [failWith, hcon]

/-- C4 witness: a concrete run whose mint call rejects with a reversion
message; the returned message mentions the collection address and the
original message. -/
theorem c4_revert_enrichment_witness :
    ∃ m, (executeRegister envRevert initialRegisterState intentC fileC).result =
        ExecResult.err m ∧
      strContains m envRevert.spgCollectionAddress = true ∧
      strContains m "execution reverted: panic" = true :=
  (c4_revert_enrichment envRevert initialRegisterState intentC fileC []
    fileC ⟨some "imgcid", "https://x"⟩ "aa11" ⟨some "ipcid", "https://y"⟩
    hash66a ⟨some "nftcid", "https://z"⟩ hash66b "execution reverted: panic"
    (by rfl) (by rfl) (by rfl) (by rfl) (by rfl) (by rfl) (by rfl) (by rfl)
    (by rfl) (by rfl) (by rfl) (by rfl) (by rfl) (by rfl)).1 (by rfl)

/-- C7: a fully successful run ends with the success state carrying the
returned identifiers and returns exactly the success object bundling
the identifiers and the three gateway URLs derived from the image CID,
the IP metadata CID and the NFT metadata CID. -/
theorem c7_success_result (env : Env) (s0 : RegisterState)
    (intent : RegisterIntent) (file : MediaFile) (c0 : List CallTag)
    (cf : MediaFile) (iu : UploadResult) (ih : String) (ipu : UploadResult)
    (iph : String) (nfu : UploadResult) (nfh : String) (r : MintResult)
    (hE : ensureAeneid env = (c0, Except.ok ()))
    (hc : env.compressImage file = Except.ok cf)
    (hu : env.uploadFile cf = Except.ok iu)
    (hs : env.sha256HexOfFile cf = Except.ok ih)
    (hip : env.uploadIpJSON (ipMetadataOf env intent cf iu ih) = Except.ok ipu)
    (hkI : env.keccakOfIpJson (ipMetadataOf env intent cf iu ih) = Except.ok iph)
    (hnf : env.uploadNftJSON
        (nftMetadataOf env (ipMetadataOf env intent cf iu ih) iu ipu) = Except.ok nfu)
    (hkN : env.keccakOfNftJson
        (nftMetadataOf env (ipMetadataOf env intent cf iu ih) iu ipu) = Except.ok nfh)
    (hv1 : validUriB (env.toIpfsUri (cidOf env ipu)) = true)
    (hv2 : validUriB (env.toIpfsUri (cidOf env nfu)) = true)
    (hv3 : validHashB iph = true)
    (hv4 : validHashB nfh = true)
    (hg : env.getClient = Except.ok ())
    (hm : env.mintAndRegisterIp (mintParamsOf env ipu iph nfu nfh) =
      Except.ok r) :
    (executeRegister env s0 intent file).result =
      ExecResult.ok r.ipId r.txHash (env.toHttps (cidOf env iu))
        (env.toHttps (cidOf env ipu)) (env.toHttps (cidOf env nfu)) ∧
    (executeRegister env s0 intent file).finalState =
      ⟨Status.success, 100, none, some r.ipId, some r.txHash⟩ := by
  have hrun := exec_pipeline env s0 intent file c0 cf iu ih ipu iph nfu nfh
    hE hc hu hs hip hkI hnf hkN
  have hfin := finish_mint_ok env c0 iu ipu iph nfu nfh r
    hv1 hv2 hv3 hv4 hg hm
  rw [hrun, hfin]
  exact ⟨rfl, rfl⟩

/-- C7 witness: a fully successful concrete run with its exact result
object and final state. -/
theorem c7_success_result_witness :
    (executeRegister envOkay initialRegisterState intentC fileC).result =
      ExecResult.ok "0xABC" "0xDEF" "https://ipfs.io/ipfs/imgcid"
        "https://ipfs.io/ipfs/ipcid" "https://ipfs.io/ipfs/nftcid" ∧
    (executeRegister envOkay initialRegisterState intentC fileC).finalState =
      ⟨Status.success, 100, none, some "0xABC", some "0xDEF"⟩ :=
  c7_success_result envOkay initialRegisterState intentC fileC []
    fileC ⟨some "imgcid", "https://x"⟩ "aa11" ⟨some "ipcid", "https://y"⟩
    hash66a ⟨some "nftcid", "https://z"⟩ hash66b ⟨"0xABC", "0xDEF"⟩
    (by rfl) (by rfl) (by rfl) (by rfl) (by rfl) (by rfl) (by rfl) (by rfl)
    (by rfl) (by rfl) (by rfl) (by rfl) (by rfl) (by rfl)

/-- The final state of a successful concrete run. -/
def goodFinal : RegisterState :=
  (executeRegister envOkay initialRegisterState intentC fileC).finalState

/-- The final state of a run that fails before the first state write,
started from the successful final state. -/
def badState : RegisterState :=
  (executeRegister envSwitchFail goodFinal intentC fileC).finalState

/-- C8 counterexample: a reachable state — a successful run followed by
a run failing at the network switch, before the first state write —
has status error while still carrying the identifiers of the earlier
success, so identifiers are not present only in status success. -/
theorem c8_counterexample :
    Reachable badState ∧ badState.status = Status.error ∧
    badState.ipId = some "0xABC" ∧ badState.txHash = some "0xDEF" ∧
    ¬ stateInvStrict badState := by
  refine ⟨?_, by decide, by decide, by decide, by decide⟩
  exact Reachable.exec envSwitchFail intentC fileC
    (Reachable.exec envOkay intentC fileC Reachable.init)

/-- C8 amended: in every state reachable through any sequence of
execute and reset calls, including every state written during a run,
the error field is non-null only when status is error, and the ipId and
txHash fields are present only when status is success or when status is
error and they were retained from the state before the failure. -/
theorem c8_state_invariant (s : RegisterState) (h : Reachable s) :
    stateInv s := by
  induction h with
  | init => decide
  | exec env intent file h ih => exact final_inv env _ intent file
  | observed env intent file h ht ih => exact trace_inv env _ _ _ _ ht
  | reset h ih => exact (show stateInv initialRegisterState by decide)

/-- C8 witness: the invariant at the initial state, via reachability. -/
theorem c8_state_invariant_witness : stateInv initialRegisterState :=
  c8_state_invariant initialRegisterState Reachable.init
